import Mathlib

/-!
# Verification of the entity categorization and context-extraction core

Shallow embedding of the core of `nlp_processor.py` (class `NLPProcessor`):
the response classifier `_parse_extraction_response`, the context windower
`_extract_context`, and the fallback matcher `_demo_extract_entities`.

Python strings are modelled as Lean `String` (a sequence of characters;
the inputs of interest are ASCII).  Python `int` is `ℤ`, Python `float`
is `ℚ` (every representable value in the claims is a finite decimal).
Python dicts whose key sets vary at run time are association lists in
insertion order.  Code that can raise returns `Except Unit`.
-/

namespace NLPProc

/-! ## Python string primitives -/

/-- The whitespace characters stripped by Python `str.strip()`
(ASCII fragment: space, tab, newline, carriage return, vertical tab,
form feed). -/
def isPySpace (c : Char) : Bool :=
  c == ' ' || c == '\t' || c == '\n' || c == '\r' || c == '\x0b' || c == '\x0c'

/-- Remove trailing characters satisfying `isPySpace`. -/
def dropTrailing (l : List Char) : List Char :=
  (l.reverse.dropWhile isPySpace).reverse

/-- Remove leading and trailing whitespace, as Python `str.strip()`. -/
def stripChars (l : List Char) : List Char :=
  dropTrailing (l.dropWhile isPySpace)

/-- Python `str.strip()` on `String`. -/
def pyStrip (s : String) : String :=
  String.mk (stripChars s.data)

/-- Python `str.lower()` (ASCII). -/
def pyLower (s : String) : String :=
  String.mk (s.data.map Char.toLower)

/-- Python `str.upper()` (ASCII). -/
def pyUpper (s : String) : String :=
  String.mk (s.data.map Char.toUpper)

/-- One step of Python `str.title()`: an alphabetic character is
upper-cased after a non-alphabetic character and lower-cased otherwise. -/
def titleChars : Bool → List Char → List Char
  | _, [] => []
  | prevAlpha, c :: cs =>
    (if c.isAlpha then (if prevAlpha then c.toLower else c.toUpper) else c)
      :: titleChars c.isAlpha cs

/-- Python `str.title()` (ASCII). -/
def pyTitle (s : String) : String :=
  String.mk (titleChars false s.data)

/-- Python `str.replace(' ', '-')`. -/
def replaceSpaceDash (s : String) : String :=
  String.mk (s.data.map fun c => if c == ' ' then '-' else c)

/-- Does `l` start with `pat`? -/
def hasLead : List Char → List Char → Bool
  | _, [] => true
  | [], _ :: _ => false
  | c :: cs, d :: ds => c == d && hasLead cs ds

/-- Character-list version of Python's substring test `pat in hay`. -/
def hasSub : List Char → List Char → Bool
  | [], pat => pat.isEmpty
  | hay@(_ :: rest), pat => hasLead hay pat || hasSub rest pat

/-- Python `pat in hay` on strings (plain substring containment). -/
def strContains (hay pat : String) : Bool :=
  hasSub hay.data pat.data

/-- Character-list version of Python `hay.find(pat)`: index of the first
occurrence, `-1` when there is none. -/
def findSub : List Char → List Char → ℤ
  | [], pat => if pat.isEmpty then 0 else -1
  | hay@(_ :: rest), pat =>
    if hasLead hay pat then 0
    else
      let r := findSub rest pat
      if r < 0 then -1 else r + 1

/-- Python `hay.find(pat)` on strings. -/
def strFind (hay pat : String) : ℤ :=
  findSub hay.data pat.data

/-- Clamp one slice index as Python does for `s[a:b]`: a negative index
counts from the end of the string, and everything is clamped into
`[0, n]`. -/
def pyClampIndex (n : ℕ) (i : ℤ) : ℕ :=
  if i < 0 then (max 0 (i + n)).toNat else min i.toNat n

/-- Python string slice `s[a:b]` (step 1): clamp both indices, then take
the characters in between (empty when the clamped start is not below the
clamped stop). -/
def pySlice (s : String) (a b : ℤ) : String :=
  let lo := pyClampIndex s.length a
  let hi := pyClampIndex s.length b
  String.mk ((s.data.drop lo).take (hi - lo))

/-- Accumulate a decimal digit list into a natural number (digits are
assumed checked by the caller). -/
def digitsVal (cs : List Char) : ℕ :=
  cs.foldl (fun n c => n * 10 + (c.toNat - 48)) 0

/-- Model of Python `float(s)` on a string: optional surrounding
whitespace, an optional sign, then decimal digits with an optional
fractional part (`"7"`, `"7."`, `"7.25"`, `".25"`).  Anything else —
including the non-finite literals `inf`/`nan`, which a `ℚ`-valued model
cannot represent — fails (`none`), as `float` raising `ValueError`. -/
def pyParseFloat (s : String) : Option ℚ :=
  let cs := stripChars s.data
  let signAndRest : ℚ × List Char :=
    match cs with
    | '-' :: rest => (-1, rest)
    | '+' :: rest => (1, rest)
    | _ => (1, cs)
  let sign := signAndRest.1
  let body := signAndRest.2
  let intPart := body.takeWhile Char.isDigit
  let rest := body.dropWhile Char.isDigit
  match rest with
  | [] => if intPart.isEmpty then none else some (sign * digitsVal intPart)
  | '.' :: fracPart =>
    if fracPart.all Char.isDigit then
      if intPart.isEmpty && fracPart.isEmpty then none
      else
        some (sign * ((digitsVal intPart : ℚ)
          + (digitsVal fracPart : ℚ) / (10 : ℚ) ^ fracPart.length))
    else none
  | _ => none

/-! ## Data model

The vendor response decodes to JSON; the classifier reads each entity
with `dict.get`, so every field is optional.  The codemap confidence may
be a JSON number or a string (Python `float()` accepts both), hence
`PyNumStr`. -/

/-- A value Python's `float()` may be applied to in the response: a
number or a string. -/
inductive PyNumStr where
  | num (q : ℚ)
  | str (s : String)
deriving DecidableEq

/-- Python `float(v)`: numbers pass through, strings are parsed,
failure models the raised `ValueError`. -/
def pyFloat : PyNumStr → Option ℚ
  | .num q => some q
  | .str s => pyParseFloat s

/-- One vendor code-mapping entry (`codemaps` value), fields read via
`.get` in `_parse_extraction_response`. -/
structure CodeMapping where
  lexical_code : Option String
  lexical_title : Option String
  confidence : Option PyNumStr
deriving DecidableEq

/-- One vendor entity (an element of `response['entities']`).  `begin`
and `end` are Lean keywords, hence `beginVal`/`endVal`. -/
structure Entity where
  text : Option String
  beginVal : Option ℤ
  endVal : Option ℤ
  semantic : Option String
  assertion : Option String
  id : Option String
  codemaps : Option (List (String × CodeMapping))
deriving DecidableEq

/-- The decoded vendor response consumed by
`_parse_extraction_response`: the `entities` key may be absent. -/
structure ExtractionResponse where
  entities : Option (List Entity)
deriving DecidableEq

/-- A value stored in an output entity dict: string, float, int, or the
raw codemaps passthrough. -/
inductive OutVal where
  | s (v : String)
  | q (v : ℚ)
  | z (v : ℤ)
  | cm (v : List (String × CodeMapping))
deriving DecidableEq

/-- An output entity record: a Python dict in insertion order. -/
abbrev Record := List (String × OutVal)

/-- The four fixed output categories. -/
inductive Cat where
  | problems
  | procedures
  | medications
  | labs
deriving DecidableEq

/-- The categorized-entities result: a dict with exactly the four fixed
keys, each a list of records. -/
structure Entities where
  problems : List Record
  procedures : List Record
  medications : List Record
  labs : List Record
deriving DecidableEq

/-- The empty result all paths start from. -/
def emptyEntities : Entities := ⟨[], [], [], []⟩

/-- Look up one category's sequence. -/
def Entities.get (E : Entities) : Cat → List Record
  | .problems => E.problems
  | .procedures => E.procedures
  | .medications => E.medications
  | .labs => E.labs

/-- Prepend a record to one category. -/
def consCat (c : Cat) (r : Record) (E : Entities) : Entities :=
  match c with
  | .problems => { E with problems := r :: E.problems }
  | .procedures => { E with procedures := r :: E.procedures }
  | .medications => { E with medications := r :: E.medications }
  | .labs => { E with labs := r :: E.labs }

/-- All records of a result, categories concatenated. -/
def allRecords (E : Entities) : List Record :=
  E.problems ++ E.procedures ++ E.medications ++ E.labs

/-! ## `_extract_context` (the context windower), lines 299–326 -/

/-- `NLPProcessor._extract_context(text, offset, length, context_window)`:
empty text yields `""`; otherwise slice `text[start:end]` with
`start = max(0, offset - context_window)`,
`end = min(len(text), offset + length + context_window)`, strip it, and
add `"..."` on the truncated sides. -/
def extract_context (text : String) (offset length : ℤ)
    (context_window : ℤ) : String :=
  if text.isEmpty then ""
  else
    let start := max 0 (offset - context_window)
    let stop := min (text.length : ℤ) (offset + length + context_window)
    let context := pyStrip (pySlice text start stop)
    let context := if start > 0 then "..." ++ context else context
    let context := if stop < (text.length : ℤ) then context ++ "..." else context
    context

/-! ## `_parse_extraction_response` (the response classifier), lines 209–297 -/

/-- The denylist of generic/administrative substrings, lines 232–237. -/
def ignore_patterns : List String :=
  ["review test results", "patient education", "lifestyle",
   "education", "review", "follow-up", "follow up",
   "appointment", "monitoring", "discussion", "counseling",
   "instructions", "recommendations", "assessment", "plan"]

/-- Lines 261–270: read `codemaps['imo']` when present; returns
`(imo_code, imo_description, confidence)`, where the confidence is
`float(imo_data.get('confidence', 0.0))` — a raised `ValueError` from
`float` is the `error` case.  Without an `imo` mapping the defaults
`('', '', 0.0)` stand. -/
def extractImoData (e : Entity) : Except Unit (String × String × ℚ) :=
  match e.codemaps with
  | some cm =>
    match cm.lookup "imo" with
    | some imo_data =>
      match pyFloat (imo_data.confidence.getD (.num 0)) with
      | some conf =>
        .ok (imo_data.lexical_code.getD "", imo_data.lexical_title.getD "", conf)
      | none => .error ()
    | none => .ok ("", "", 0)
  | none => .ok ("", "", 0)

/-- The record built at lines 272–285 for an accepted entity, given the
extracted code, description and confidence. -/
def entityRecord (original_text : String) (e : Entity)
    (imo_code imo_description : String) (confidence : ℚ) : Record :=
  let offset := e.beginVal.getD 0
  let length := e.endVal.getD 0 - offset
  [("text", .s (e.text.getD "")),
   ("code", .s imo_code),
   ("code_system", .s "IMO"),
   ("description", .s imo_description),
   ("offset", .z offset),
   ("length", .z length),
   ("confidence", .q confidence),
   ("context", .s (extract_context original_text offset length 200)),
   ("entity_id", .s (e.id.getD "")),
   ("semantic", .s (e.semantic.getD "")),
   ("assertion", .s (e.assertion.getD "")),
   ("codemaps", .cm (e.codemaps.getD []))]

/-- One iteration of the loop at lines 239–295: `ok none` when the span
is skipped (assertion filter, noise filter) or its label matches no
category, `ok (some (c, r))` when record `r` is appended to category
`c`, `error` when the confidence coercion raises. -/
def stepEntity (original_text : String) (e : Entity) :
    Except Unit (Option (Cat × Record)) :=
  if pyLower (e.assertion.getD "") != "present" then .ok none
  else if (ignore_patterns.any fun pat =>
      strContains (pyStrip (pyLower (e.text.getD ""))) pat) then .ok none
  else
    match extractImoData e with
    | .error u => .error u
    | .ok (imo_code, imo_description, confidence) =>
      let category := pyLower (e.semantic.getD "")
      let r := entityRecord original_text e imo_code imo_description confidence
      if strContains category "problem" || strContains category "condition"
          || strContains category "diagnosis" then .ok (some (.problems, r))
      else if strContains category "procedure" then .ok (some (.procedures, r))
      else if strContains category "medication" || strContains category "drug" then
        .ok (some (.medications, r))
      else if strContains category "lab" || strContains category "observation"
          || strContains category "test" then .ok (some (.labs, r))
      else .ok none

/-- The loop over `response['entities']`: records are appended in input
order; a raise aborts the whole parse. -/
def processEntities (original_text : String) : List Entity → Except Unit Entities
  | [] => .ok emptyEntities
  | e :: es => do
    let h ← stepEntity original_text e
    let rest ← processEntities original_text es
    match h with
    | none => pure rest
    | some (c, r) => pure (consCat c r rest)

/-- `NLPProcessor._parse_extraction_response(response, original_text)`:
an absent `entities` key yields the empty result. -/
def parse_extraction_response (response : ExtractionResponse)
    (original_text : String) : Except Unit Entities :=
  match response.entities with
  | none => .ok emptyEntities
  | some es => processEntities original_text es

/-! ## `_demo_extract_entities` (the fallback matcher), lines 328–427 -/

/-- Problem vocabulary, lines 348–352. -/
def problem_keywords : List String :=
  ["hypertension", "diabetes", "stemi", "myocardial infarction", "chest pain",
   "hyperlipidemia", "pain", "infection", "fever", "pneumonia", "copd",
   "heart failure", "arrhythmia", "stroke", "asthma"]

/-- Procedure vocabulary, lines 354–357. -/
def procedure_keywords : List String :=
  ["catheterization", "surgery", "biopsy", "intubation", "procedure",
   "operation", "endoscopy", "colonoscopy", "angiography", "stent"]

/-- Medication vocabulary, lines 359–363. -/
def medication_keywords : List String :=
  ["aspirin", "metformin", "lisinopril", "atorvastatin", "clopidogrel",
   "heparin", "insulin", "warfarin", "levothyroxine", "amlodipine",
   "omeprazole", "prednisone", "albuterol"]

/-- Lab vocabulary, lines 365–369. -/
def lab_keywords : List String :=
  ["troponin", "ekg", "blood pressure", "heart rate", "glucose",
   "hemoglobin", "creatinine", "bun", "wbc", "platelets", "inr",
   "cholesterol", "ldl", "hdl", "triglycerides"]

/-- The record emitted for one matched demo keyword (six keys only). -/
def demoRecord (keyword code_system : String) (confidence : ℚ)
    (context : String) : Record :=
  [("text", .s (pyTitle keyword)),
   ("code", .s ("DEMO-" ++ pyUpper (replaceSpaceDash keyword))),
   ("code_system", .s code_system),
   ("description", .s (pyTitle keyword)),
   ("confidence", .q confidence),
   ("context", .s context)]

/-- One of the four scan loops of `_demo_extract_entities`: for each
keyword found in the lower-cased text, emit a record with context of
radius 50 around its first occurrence. -/
def demoScan (text : String) (keywords : List String)
    (code_system : String) (confidence : ℚ) : List Record :=
  let text_lower := pyLower text
  keywords.filterMap fun keyword =>
    if strContains text_lower keyword then
      let offset := strFind text_lower keyword
      some (demoRecord keyword code_system confidence
        (extract_context text offset keyword.length 50))
    else none

/-- `NLPProcessor._demo_extract_entities(text)`. -/
def demo_extract_entities (text : String) : Entities :=
  { problems := demoScan text problem_keywords "ICD-10-CM" 0.85
    procedures := demoScan text procedure_keywords "CPT" 0.80
    medications := demoScan text medication_keywords "RxNorm" 0.90
    labs := demoScan text lab_keywords "LOINC" 0.75 }

/-! ## Characterization of the classifier loop -/

/-- A span survives the assertion filter (lines 240–244) and the noise
filter (lines 246–250). -/
def acceptedEntity (e : Entity) : Bool :=
  !(pyLower (e.assertion.getD "") != "present") &&
  !(ignore_patterns.any fun pat =>
    strContains (pyStrip (pyLower (e.text.getD ""))) pat)

/-- The category chosen by the `if`/`elif` chain of lines 287–295, as a
function of the lower-cased semantic label. -/
def catOf (category : String) : Option Cat :=
  if strContains category "problem" || strContains category "condition"
      || strContains category "diagnosis" then some .problems
  else if strContains category "procedure" then some .procedures
  else if strContains category "medication" || strContains category "drug" then
    some .medications
  else if strContains category "lab" || strContains category "observation"
      || strContains category "test" then some .labs
  else none

/-- `stepEntity` in declarative form: filters first, then the confidence
coercion (which may raise), then the category dispatch. -/
theorem stepEntity_eq (t : String) (e : Entity) :
    stepEntity t e =
      if acceptedEntity e then
        match extractImoData e with
        | .error u => .error u
        | .ok (cd, dsc, q) =>
          .ok ((catOf (pyLower (e.semantic.getD ""))).map
            fun c => (c, entityRecord t e cd dsc q))
      else .ok none := by
  unfold stepEntity acceptedEntity catOf
  by_cases h1 : (pyLower (e.assertion.getD "") != "present") = true
  · simp [h1]
  · rw [Bool.not_eq_true] at h1
    by_cases h2 : (ignore_patterns.any fun pat =>
        strContains (pyStrip (pyLower (e.text.getD ""))) pat) = true
    · simp [h1, h2]
    · rw [Bool.not_eq_true] at h2
      simp only [h1, h2, Bool.not_false, Bool.and_self, if_false, if_true,
        Bool.false_eq_true, Bool.not_true]
      cases hImo : extractImoData e with
      | error u => rfl
      | ok trip =>
        obtain ⟨cd, dsc, q⟩ := trip
        split_ifs <;> rfl

/-- The records that land in category `c`, in input order: accepted
spans whose confidence coercion succeeded and whose label maps to `c`. -/
def collectCat (t : String) (c : Cat) (es : List Entity) : List Record :=
  es.filterMap fun e =>
    if acceptedEntity e then
      match extractImoData e with
      | .ok (cd, dsc, q) =>
        if catOf (pyLower (e.semantic.getD "")) = some c then
          some (entityRecord t e cd dsc q)
        else none
      | .error _ => none
    else none

theorem consCat_get (c : Cat) (r : Record) (E : Entities) (c' : Cat) :
    (consCat c r E).get c' = if c' = c then r :: E.get c' else E.get c' := by
  cases c <;> cases c' <;> simp [consCat, Entities.get]

theorem emptyEntities_get (c : Cat) : emptyEntities.get c = [] := by
  cases c <;> rfl

theorem collectCat_cons_skip (t : String) (c : Cat) (e : Entity) (es : List Entity)
    (h : acceptedEntity e = false) :
    collectCat t c (e :: es) = collectCat t c es := by
  simp [collectCat, List.filterMap_cons, h]

theorem collectCat_cons_err (t : String) (c : Cat) (e : Entity) (es : List Entity)
    (h : acceptedEntity e = true) (himo : extractImoData e = .error ()) :
    collectCat t c (e :: es) = collectCat t c es := by
  simp [collectCat, List.filterMap_cons, h, himo]

theorem collectCat_cons_hit (t : String) (c : Cat) (e : Entity) (es : List Entity)
    (cd dsc : String) (q : ℚ)
    (h : acceptedEntity e = true) (himo : extractImoData e = .ok (cd, dsc, q))
    (hcat : catOf (pyLower (e.semantic.getD "")) = some c) :
    collectCat t c (e :: es) = entityRecord t e cd dsc q :: collectCat t c es := by
  simp [collectCat, List.filterMap_cons, h, himo, hcat]

theorem collectCat_cons_miss (t : String) (c : Cat) (e : Entity) (es : List Entity)
    (cd dsc : String) (q : ℚ)
    (h : acceptedEntity e = true) (himo : extractImoData e = .ok (cd, dsc, q))
    (hcat : catOf (pyLower (e.semantic.getD "")) ≠ some c) :
    collectCat t c (e :: es) = collectCat t c es := by
  simp [collectCat, List.filterMap_cons, h, himo, hcat]

theorem exceptBind_ok {ε α β : Type} (a : α) (f : α → Except ε β) :
    (Except.ok a >>= f) = f a := rfl

theorem exceptBind_error {ε α β : Type} (u : ε) (f : α → Except ε β) :
    (Except.error u >>= f) = Except.error u := rfl

/-- Main characterization: a successful parse of the entity loop yields
exactly the `collectCat` lists, category by category. -/
theorem processEntities_ok_get (t : String) :
    ∀ (es : List Entity) (E : Entities),
      processEntities t es = .ok E → ∀ c, E.get c = collectCat t c es := by
  intro es
  induction es with
  | nil =>
    intro E hE c
    simp only [processEntities] at hE
    cases hE
    simp [collectCat, emptyEntities_get]
  | cons e es ih =>
    intro E hE c
    simp only [processEntities] at hE
    rw [stepEntity_eq] at hE
    by_cases hacc : acceptedEntity e = true
    · rw [if_pos hacc] at hE
      cases hImo : extractImoData e with
      | error u =>
        rw [hImo, exceptBind_error] at hE
        exact absurd hE (by simp)
      | ok trip =>
        obtain ⟨cd, dsc, q⟩ := trip
        rw [hImo, exceptBind_ok] at hE
        cases hrest : processEntities t es with
        | error u =>
          rw [hrest, exceptBind_error] at hE
          exact absurd hE (by simp)
        | ok rest =>
          have hres := ih rest hrest
          rw [hrest, exceptBind_ok] at hE
          cases hcat : catOf (pyLower (e.semantic.getD "")) with
          | none =>
            rw [hcat] at hE
            simp only [Option.map_none', pure, Except.pure, Except.ok.injEq] at hE
            subst hE
            rw [collectCat_cons_miss t c e es cd dsc q hacc hImo (by simp [hcat])]
            exact hres c
          | some c0 =>
            rw [hcat] at hE
            simp only [Option.map_some', pure, Except.pure, Except.ok.injEq] at hE
            subst hE
            rw [consCat_get]
            by_cases hc : c = c0
            · subst hc
              rw [if_pos rfl, collectCat_cons_hit t c e es cd dsc q hacc hImo hcat,
                hres c]
            · rw [if_neg hc,
                collectCat_cons_miss t c e es cd dsc q hacc hImo
                  (by rw [hcat]; exact fun h => hc (Option.some.inj h).symm),
                hres c]
    · rw [if_neg hacc] at hE
      rw [Bool.not_eq_true] at hacc
      rw [exceptBind_ok] at hE
      cases hrest : processEntities t es with
      | error u =>
        rw [hrest, exceptBind_error] at hE
        exact absurd hE (by simp)
      | ok rest =>
        have hres := ih rest hrest
        rw [hrest, exceptBind_ok] at hE
        simp only [pure, Except.pure, Except.ok.injEq] at hE
        subst hE
        rw [collectCat_cons_skip t c e es hacc]
        exact hres c

/-- `_parse_extraction_response` is the entity loop on the (possibly
absent, then empty) `entities` list. -/
theorem parse_eq (resp : ExtractionResponse) (t : String) :
    parse_extraction_response resp t = processEntities t (resp.entities.getD []) := by
  cases h : resp.entities <;> simp [parse_extraction_response, h, processEntities]

/-! ## Record field facts -/

theorem entityRecord_lookup_confidence (t : String) (e : Entity)
    (cd dsc : String) (q : ℚ) :
    (entityRecord t e cd dsc q).lookup "confidence" = some (.q q) := rfl

theorem entityRecord_lookup_context (t : String) (e : Entity)
    (cd dsc : String) (q : ℚ) :
    (entityRecord t e cd dsc q).lookup "context" =
      some (.s (extract_context t (e.beginVal.getD 0)
        (e.endVal.getD 0 - e.beginVal.getD 0) 200)) := rfl

theorem entityRecord_keys (t : String) (e : Entity)
    (cd dsc : String) (q : ℚ) :
    (entityRecord t e cd dsc q).map Prod.fst =
      ["text", "code", "code_system", "description", "offset", "length",
       "confidence", "context", "entity_id", "semantic", "assertion",
       "codemaps"] := rfl

theorem demoRecord_lookup_confidence (kw cs : String) (q : ℚ) (ctx : String) :
    (demoRecord kw cs q ctx).lookup "confidence" = some (.q q) := rfl

theorem demoRecord_keys (kw cs : String) (q : ℚ) (ctx : String) :
    (demoRecord kw cs q ctx).map Prod.fst =
      ["text", "code", "code_system", "description", "confidence", "context"] := rfl

/-- Membership in `allRecords` is membership in one of the four
categories. -/
theorem mem_allRecords (E : Entities) (r : Record) :
    r ∈ allRecords E ↔ ∃ c, r ∈ E.get c := by
  constructor
  · intro h
    simp only [allRecords, List.mem_append] at h
    rcases h with ((h | h) | h) | h
    exacts [⟨.problems, h⟩, ⟨.procedures, h⟩, ⟨.medications, h⟩, ⟨.labs, h⟩]
  · rintro ⟨c, h⟩
    cases c <;> simp only [Entities.get] at h <;>
      simp [allRecords, List.mem_append, h]

/-- Unpack membership in a `collectCat` list. -/
theorem mem_collectCat (t : String) (c : Cat) (es : List Entity) (r : Record)
    (h : r ∈ collectCat t c es) :
    ∃ e ∈ es, acceptedEntity e = true ∧ ∃ cd dsc q,
      extractImoData e = .ok (cd, dsc, q) ∧
      catOf (pyLower (e.semantic.getD "")) = some c ∧
      r = entityRecord t e cd dsc q := by
  simp only [collectCat, List.mem_filterMap] at h
  obtain ⟨e, he, hr⟩ := h
  refine ⟨e, he, ?_⟩
  by_cases hacc : acceptedEntity e = true
  · rw [if_pos hacc] at hr
    refine ⟨hacc, ?_⟩
    cases hImo : extractImoData e with
    | error u => rw [hImo] at hr; exact Option.noConfusion hr
    | ok trip =>
      obtain ⟨cd, dsc, q⟩ := trip
      simp only [hImo] at hr
      by_cases hcat : catOf (pyLower (e.semantic.getD "")) = some c
      · rw [if_pos hcat] at hr
        exact ⟨cd, dsc, q, rfl, hcat, (Option.some.inj hr).symm⟩
      · rw [if_neg hcat] at hr
        exact Option.noConfusion hr
  · rw [if_neg hacc] at hr
    exact Option.noConfusion hr

/-- Unpack membership in a `demoScan` list. -/
theorem mem_demoScan (t : String) (kws : List String) (cs : String) (q : ℚ)
    (r : Record) (h : r ∈ demoScan t kws cs q) :
    ∃ kw ∈ kws, strContains (pyLower t) kw = true ∧
      r = demoRecord kw cs q
        (extract_context t (strFind (pyLower t) kw) kw.length 50) := by
  simp only [demoScan, List.mem_filterMap] at h
  obtain ⟨kw, hkw, hr⟩ := h
  by_cases hc : strContains (pyLower t) kw = true
  · rw [if_pos hc] at hr
    exact ⟨kw, hkw, hc, (Option.some.inj hr).symm⟩
  · rw [if_neg hc] at hr
    exact Option.noConfusion hr

/-- What a successful `extractImoData` says about the confidence: `0`
when no parsed vendor confidence was involved, or the parsed value. -/
theorem extractImoData_ok_conf (e : Entity) (cd dsc : String) (q : ℚ)
    (h : extractImoData e = .ok (cd, dsc, q)) :
    q = 0 ∨ ∃ cm d v, e.codemaps = some cm ∧ cm.lookup "imo" = some d ∧
      d.confidence = some v ∧ pyFloat v = some q := by
  unfold extractImoData at h
  cases hcm : e.codemaps with
  | none =>
    simp only [hcm, Except.ok.injEq, Prod.mk.injEq] at h
    left; exact h.2.2.symm
  | some cm =>
    simp only [hcm] at h
    cases hd : cm.lookup "imo" with
    | none =>
      simp only [hd, Except.ok.injEq, Prod.mk.injEq] at h
      left; exact h.2.2.symm
    | some d =>
      simp only [hd] at h
      cases hv : d.confidence with
      | none =>
        simp only [hv, Option.getD_none, pyFloat, Except.ok.injEq,
          Prod.mk.injEq] at h
        left; exact h.2.2.symm
      | some v =>
        simp only [hv, Option.getD_some] at h
        cases hpf : pyFloat v with
        | none => rw [hpf] at h; exact Except.noConfusion h
        | some qv =>
          simp only [hpf, Except.ok.injEq, Prod.mk.injEq] at h
          right
          exact ⟨cm, d, v, rfl, hd, hv, by rw [hpf, h.2.2]⟩

/-! ## Facts about stripping and slicing -/

theorem dropTrailing_eq_rdropWhile (l : List Char) :
    dropTrailing l = l.rdropWhile isPySpace := rfl

theorem stripChars_sub (l : List Char) : stripChars l <:+: l := by
  have h1 : stripChars l <+: l.dropWhile isPySpace := by
    rw [stripChars, dropTrailing_eq_rdropWhile]
    exact List.rdropWhile_prefix _ _
  exact h1.isInfix.trans (List.dropWhile_suffix _).isInfix

theorem dropWhile_false_head {c : Char} {rest : List Char}
    (hm : List.dropWhile isPySpace (c :: rest) = c :: rest) :
    isPySpace c = false := by
  by_contra hc
  rw [Bool.not_eq_false] at hc
  rw [List.dropWhile_cons, if_pos hc] at hm
  have hlen := congrArg List.length hm
  have hle : (List.dropWhile isPySpace rest).length ≤ rest.length :=
    List.Sublist.length_le (List.dropWhile_suffix _).sublist
  simp only [List.length_cons] at hlen
  omega

theorem dropWhile_eq_self_of_lead {m' m : List Char} (hpre : m' <+: m)
    (hm : List.dropWhile isPySpace m = m) :
    List.dropWhile isPySpace m' = m' := by
  cases m' with
  | nil => rfl
  | cons c cs =>
    obtain ⟨t, ht⟩ := hpre
    subst ht
    have hc := @dropWhile_false_head c (cs ++ t) hm
    rw [List.dropWhile_cons, if_neg (by simp [hc])]

theorem stripChars_idem (l : List Char) :
    stripChars (stripChars l) = stripChars l := by
  have hmself : (l.dropWhile isPySpace).dropWhile isPySpace
      = l.dropWhile isPySpace := List.dropWhile_idempotent _ _
  have hpre : dropTrailing (l.dropWhile isPySpace) <+: l.dropWhile isPySpace := by
    rw [dropTrailing_eq_rdropWhile]
    exact List.rdropWhile_prefix _ _
  show dropTrailing ((dropTrailing (l.dropWhile isPySpace)).dropWhile isPySpace)
      = dropTrailing (l.dropWhile isPySpace)
  rw [dropWhile_eq_self_of_lead hpre hmself, dropTrailing_eq_rdropWhile,
    dropTrailing_eq_rdropWhile]
  exact List.rdropWhile_idempotent _ _

theorem pyStrip_idem (s : String) : pyStrip (pyStrip s) = pyStrip s := by
  show String.mk (stripChars (stripChars s.data)) = String.mk (stripChars s.data)
  rw [stripChars_idem]

theorem pyStrip_data_sub (s : String) : (pyStrip s).data <:+: s.data :=
  stripChars_sub s.data

theorem pySlice_data_sub (s : String) (a b : ℤ) :
    (pySlice s a b).data <:+: s.data := by
  show ((s.data.drop (pyClampIndex s.length a)).take
    (pyClampIndex s.length b - pyClampIndex s.length a)) <:+: s.data
  exact (List.take_prefix _ _).isInfix.trans (List.drop_suffix _ _).isInfix

/-! ## Specification-side definitions -/

/-- The context windower as the specification words it (§4.2): the slice
`text[start:end]` (Python slicing), trimmed of surrounding whitespace,
with an ellipsis marker prefixed exactly when `start > 0` and suffixed
exactly when `end < textLength`; empty text yields the empty string. -/
def extractContextSpec (text : String) (offset length windowRadius : ℤ) : String :=
  if text.isEmpty then ""
  else
    let start := max 0 (offset - windowRadius)
    let stop := min (text.length : ℤ) (offset + length + windowRadius)
    (if start > 0 then "..." else "") ++ pyStrip (pySlice text start stop)
      ++ (if stop < (text.length : ℤ) then "..." else "")

/-- The four keyword groups of the specification's category-assignment
rule, in priority order. -/
def specGroups : List (List String × Cat) :=
  [(["problem", "condition", "diagnosis"], .problems),
   (["procedure"], .procedures),
   (["medication", "drug"], .medications),
   (["lab", "observation", "test"], .labs)]

/-- First-match category assignment as the specification words it:
the first group (in priority order) with a keyword occurring in the
label wins; no match means no category. -/
def specPriorityCat (label : String) : Option Cat :=
  (specGroups.find? fun g => g.1.any fun kw => strContains label kw).map Prod.snd

theorem catOf_eq_specPriorityCat (label : String) :
    catOf label = specPriorityCat label := by
  unfold catOf specPriorityCat specGroups
  by_cases h1 : (strContains label "problem" || strContains label "condition"
      || strContains label "diagnosis") = true
  · rw [if_pos h1, List.find?_cons_of_pos _ (by simpa [Bool.or_assoc] using h1)]
    rfl
  · rw [if_neg h1, List.find?_cons_of_neg _ (by simpa [Bool.or_assoc] using h1)]
    by_cases h2 : strContains label "procedure" = true
    · rw [if_pos h2, List.find?_cons_of_pos _ (by simpa using h2)]
      rfl
    · rw [if_neg h2, List.find?_cons_of_neg _ (by simpa using h2)]
      by_cases h3 : (strContains label "medication" || strContains label "drug") = true
      · rw [if_pos h3, List.find?_cons_of_pos _ (by simpa using h3)]
        rfl
      · rw [if_neg h3, List.find?_cons_of_neg _ (by simpa using h3)]
        by_cases h4 : (strContains label "lab" || strContains label "observation"
            || strContains label "test") = true
        · rw [if_pos h4, List.find?_cons_of_pos _ (by simpa [Bool.or_assoc] using h4)]
          rfl
        · rw [if_neg h4, List.find?_cons_of_neg _ (by simpa [Bool.or_assoc] using h4)]
          rfl

/-! ## Claim theorems -/

set_option maxRecDepth 8000 in
/-- C5: `fallbackClassify` on the example sentence produces a problems
record with text "Hypertension" and confidence 0.85, a medications
record with text "Aspirin" and confidence 0.90, and empty procedures
and labs. -/
theorem C5_fallback_example :
    (∃ r ∈ (demo_extract_entities
        "Patient has hypertension and takes aspirin daily.").problems,
      r.lookup "text" = some (.s "Hypertension") ∧
      r.lookup "confidence" = some (.q 0.85)) ∧
    (∃ r ∈ (demo_extract_entities
        "Patient has hypertension and takes aspirin daily.").medications,
      r.lookup "text" = some (.s "Aspirin") ∧
      r.lookup "confidence" = some (.q 0.90)) ∧
    (demo_extract_entities
      "Patient has hypertension and takes aspirin daily.").procedures = [] ∧
    (demo_extract_entities
      "Patient has hypertension and takes aspirin daily.").labs = [] := by
  have hp : (demo_extract_entities
      "Patient has hypertension and takes aspirin daily.").problems =
      [demoRecord "hypertension" "ICD-10-CM" 0.85
        (extract_context "Patient has hypertension and takes aspirin daily."
          12 12 50)] := rfl
  have hm : (demo_extract_entities
      "Patient has hypertension and takes aspirin daily.").medications =
      [demoRecord "aspirin" "RxNorm" 0.90
        (extract_context "Patient has hypertension and takes aspirin daily."
          35 7 50)] := rfl
  refine ⟨⟨demoRecord "hypertension" "ICD-10-CM" 0.85
      (extract_context "Patient has hypertension and takes aspirin daily."
        12 12 50), ?_, rfl, rfl⟩,
    ⟨demoRecord "aspirin" "RxNorm" 0.90
      (extract_context "Patient has hypertension and takes aspirin daily."
        35 7 50), ?_, rfl, rfl⟩, rfl, rfl⟩
  · rw [hp]; exact List.mem_singleton_self _
  · rw [hm]; exact List.mem_singleton_self _

/-- C6: `_extract_context` behaves exactly as the specification words
it: empty text yields `""`; otherwise the result is the Python slice
`text[start:end]` with `start = max(0, offset - windowRadius)` and
`end = min(len(text), offset + length + windowRadius)`, trimmed, with
an ellipsis prefix exactly when `start > 0` and an ellipsis suffix
exactly when `end < len(text)`. -/
theorem C6_window_formula (text : String) (offset length windowRadius : ℤ) :
    extract_context text offset length windowRadius =
      extractContextSpec text offset length windowRadius := by
  unfold extract_context extractContextSpec
  by_cases he : text.isEmpty
  · rw [if_pos he, if_pos he]
  · rw [if_neg he, if_neg he]
    by_cases h1 : max 0 (offset - windowRadius) > 0 <;>
      by_cases h2 : min (text.length : ℤ) (offset + length + windowRadius)
        < (text.length : ℤ) <;>
      simp [h1, h2, String.append_assoc, String.empty_append, String.append_empty]

/-- C7 counterexample: on `"0123456789abcdefghij"` with offset 10,
length 1 and radius 3 the window is NOT the claimed `"...789a..."`
(the window spans `start = 7` to `end = 14`, i.e. seven characters). -/
theorem C7_counterexample :
    extract_context "0123456789abcdefghij" 10 1 3 ≠ "...789a..." := by
  decide

/-- C7 amended: the same call yields `"...789abcd..."` — ellipsis on
both sides around the characters from `start = 7` up to `end = 14`
(radius 3 before the span start through radius 3 after the span end). -/
theorem C7_amended_value :
    extract_context "0123456789abcdefghij" 10 1 3 = "...789abcd..." := by
  decide

/-- C10: every context returned by `_extract_context` is, after
removing the optional leading and trailing `"..."` markers, a
whitespace-trimmed contiguous substring of the source text (never
synthesized content). -/
theorem C10_context_is_substring (text : String) (offset length windowRadius : ℤ) :
    ∃ pre suf core : String,
      (pre = "..." ∨ pre = "") ∧ (suf = "..." ∨ suf = "") ∧
      extract_context text offset length windowRadius = pre ++ core ++ suf ∧
      core.data <:+: text.data ∧ pyStrip core = core := by
  unfold extract_context
  by_cases he : text.isEmpty
  · refine ⟨"", "", "", Or.inr rfl, Or.inr rfl, ?_, ⟨[], text.data, by simp⟩, rfl⟩
    rw [if_pos he]
    rfl
  · rw [if_neg he]
    refine ⟨if max 0 (offset - windowRadius) > 0 then "..." else "",
      if min (text.length : ℤ) (offset + length + windowRadius)
        < (text.length : ℤ) then "..." else "",
      pyStrip (pySlice text (max 0 (offset - windowRadius))
        (min (text.length : ℤ) (offset + length + windowRadius))),
      ?_, ?_, ?_, ?_, ?_⟩
    · split <;> simp
    · split <;> simp
    · by_cases h1 : max 0 (offset - windowRadius) > 0 <;>
        by_cases h2 : min (text.length : ℤ) (offset + length + windowRadius)
          < (text.length : ℤ) <;>
        simp [h1, h2, String.append_assoc, String.empty_append, String.append_empty]
    · exact (pyStrip_data_sub _).trans (pySlice_data_sub _ _ _)
    · exact pyStrip_idem _

/-- When the vendor mapping carries no confidence (no codemaps, no
`imo` entry, or an entry without the field), `extractImoData` succeeds
with confidence `0`. -/
theorem extractImoData_noconf (e : Entity)
    (h : ((e.codemaps.bind fun cm => cm.lookup "imo").bind
      fun d => d.confidence) = none) :
    ∃ cd dsc, extractImoData e = .ok (cd, dsc, 0) := by
  unfold extractImoData
  cases hcm : e.codemaps with
  | none => exact ⟨"", "", rfl⟩
  | some cm =>
    cases hd : cm.lookup "imo" with
    | none =>
      simp only [hd]
      exact ⟨"", "", rfl⟩
    | some d =>
      simp only [hcm, hd, Option.some_bind'] at h
      simp only [hd, h, Option.getD_none, pyFloat]
      exact ⟨d.lexical_code.getD "", d.lexical_title.getD "", rfl⟩

/-- Sample request: one well-formed, accepted problem span with no
codemaps. -/
def w1Entity : Entity :=
  ⟨some "hypertension", some 0, some 12, some "problem", some "present",
    some "id1", none⟩

/-- Sample response wrapping `w1Entity`. -/
def w1Resp : ExtractionResponse := ⟨some [w1Entity]⟩

/-- The record the classifier builds for `w1Entity` on empty text. -/
def w1Record : Record := entityRecord "" w1Entity "" "" 0

/-- The classifier result for `w1Resp`. -/
def w1E : Entities := ⟨[w1Record], [], [], []⟩

theorem parse_w1 : parse_extraction_response w1Resp "" = .ok w1E := rfl

/-- C1: under the data-model assumption that any vendor-supplied
confidence parses into [0,1], every record either path produces carries
a confidence in [0,1] (in `ℚ`, hence finite); and when the vendor
code-mapping carries no confidence the record's confidence is 0. -/
theorem C1_confidence_invariant :
    (∀ (resp : ExtractionResponse) (t : String) (E : Entities),
      parse_extraction_response resp t = .ok E →
      (∀ e ∈ resp.entities.getD [], ∀ cm d v q, e.codemaps = some cm →
        cm.lookup "imo" = some d → d.confidence = some v →
        pyFloat v = some q → 0 ≤ q ∧ q ≤ 1) →
      ∀ r ∈ allRecords E, ∃ q, r.lookup "confidence" = some (.q q) ∧
        0 ≤ q ∧ q ≤ 1)
    ∧ (∀ (t : String) (e : Entity) (c : Cat) (r : Record),
      stepEntity t e = .ok (some (c, r)) →
      ((e.codemaps.bind fun cm => cm.lookup "imo").bind
        fun d => d.confidence) = none →
      r.lookup "confidence" = some (.q 0))
    ∧ (∀ t : String, ∀ r ∈ allRecords (demo_extract_entities t),
      ∃ q, r.lookup "confidence" = some (.q q) ∧ 0 ≤ q ∧ q ≤ 1) := by
  refine ⟨?_, ?_, ?_⟩
  · intro resp t E hok hconf r hr
    rw [parse_eq] at hok
    rw [mem_allRecords] at hr
    obtain ⟨c, hc⟩ := hr
    rw [processEntities_ok_get t _ E hok c] at hc
    obtain ⟨e, he, hacc, cd, dsc, q, himo, hcat, rfl⟩ := mem_collectCat _ _ _ _ hc
    refine ⟨q, entityRecord_lookup_confidence .., ?_⟩
    rcases extractImoData_ok_conf e cd dsc q himo with h0 | ⟨cm, d, v, hcm, hd, hv, hpf⟩
    · rw [h0]
      norm_num
    · exact hconf e he cm d v q hcm hd hv hpf
  · intro t e c r hstep hnone
    rw [stepEntity_eq] at hstep
    by_cases hacc : acceptedEntity e = true
    case neg =>
      rw [if_neg hacc] at hstep
      exact Option.noConfusion (Except.ok.inj hstep)
    rw [if_pos hacc] at hstep
    obtain ⟨cd, dsc, himo⟩ := extractImoData_noconf e hnone
    rw [himo] at hstep
    have hpayload := Except.ok.inj hstep
    cases hcat : catOf (pyLower (e.semantic.getD "")) with
    | none =>
      rw [hcat] at hpayload
      exact Option.noConfusion hpayload
    | some c0 =>
      rw [hcat] at hpayload
      simp only [Option.map_some'] at hpayload
      have hr : r = entityRecord t e cd dsc 0 :=
        (congrArg Prod.snd (Option.some.inj hpayload)).symm
      rw [hr]
      exact entityRecord_lookup_confidence ..
  · intro t r hr
    rw [mem_allRecords] at hr
    obtain ⟨c, hc⟩ := hr
    have hscan : ∀ (kws : List String) (cs : String) (q : ℚ), 0 ≤ q → q ≤ 1 →
        ∀ r ∈ demoScan t kws cs q, ∃ q', r.lookup "confidence" = some (.q q') ∧
          0 ≤ q' ∧ q' ≤ 1 := by
      intro kws cs q h0 h1 r hr
      obtain ⟨kw, -, -, rfl⟩ := mem_demoScan t kws cs q r hr
      exact ⟨q, demoRecord_lookup_confidence .., h0, h1⟩
    cases c with
    | problems =>
      exact hscan problem_keywords "ICD-10-CM" 0.85 (by norm_num) (by norm_num) r
        (by simpa [demo_extract_entities, Entities.get] using hc)
    | procedures =>
      exact hscan procedure_keywords "CPT" 0.80 (by norm_num) (by norm_num) r
        (by simpa [demo_extract_entities, Entities.get] using hc)
    | medications =>
      exact hscan medication_keywords "RxNorm" 0.90 (by norm_num) (by norm_num) r
        (by simpa [demo_extract_entities, Entities.get] using hc)
    | labs =>
      exact hscan lab_keywords "LOINC" 0.75 (by norm_num) (by norm_num) r
        (by simpa [demo_extract_entities, Entities.get] using hc)

/-- C1 witness: the classifier part of C1 applied to the concrete
response `w1Resp` (no codemaps, so the defaulted confidence 0 is in
range). -/
theorem C1_witness :
    ∃ q, w1Record.lookup "confidence" = some (OutVal.q q) ∧ 0 ≤ q ∧ q ≤ 1 :=
  C1_confidence_invariant.1 w1Resp "" w1E parse_w1
    (fun e he cm _ _ _ hcm _ _ _ => by
      have hew : e = w1Entity := by simpa [w1Resp] using he
      rw [hew] at hcm
      exact Option.noConfusion (hcm.symm.trans (rfl : w1Entity.codemaps = none)).symm)
    w1Record (by simp [allRecords, w1E])

/-- Entity whose vendor confidence `"high"` cannot be parsed as a
number, so the `float` coercion in the classifier raises. -/
def badConfEntity : Entity :=
  ⟨some "hypertension", some 0, some 12, some "problem", some "present",
    some "id2", some [("imo", ⟨some "ICD", some "Hypertension",
      some (.str "high")⟩)]⟩

/-- C2 counterexample: a present-but-unparseable confidence makes the
classifier raise — the parse is an error, refuting "the Response
Classifier does not raise". -/
theorem C2_counterexample :
    parse_extraction_response ⟨some [badConfEntity]⟩ "hypertension" =
      .error () := rfl

/-- C2 amended: an absent vendor confidence defaults to 0.0 without
failure, but a present non-numeric confidence string raises (aborting
the whole parse) rather than defaulting. -/
theorem C2_confidence_handling :
    (∀ (t : String) (e : Entity), acceptedEntity e = true →
      ((e.codemaps.bind fun cm => cm.lookup "imo").bind
        fun d => d.confidence) = none →
      stepEntity t e ≠ .error () ∧
      ∀ c r, stepEntity t e = .ok (some (c, r)) →
        r.lookup "confidence" = some (.q 0))
    ∧ (∀ (t : String) (e : Entity) (d : CodeMapping) (s : String),
      acceptedEntity e = true →
      (e.codemaps.bind fun cm => cm.lookup "imo") = some d →
      d.confidence = some (.str s) → pyParseFloat s = none →
      stepEntity t e = .error ()) := by
  constructor
  · intro t e hacc hnone
    obtain ⟨cd, dsc, himo⟩ := extractImoData_noconf e hnone
    rw [stepEntity_eq, if_pos hacc, himo]
    constructor
    · cases hcat : catOf (pyLower (e.semantic.getD "")) <;> simp [hcat]
    · intro c r hstep
      have hpayload := Except.ok.inj hstep
      cases hcat : catOf (pyLower (e.semantic.getD "")) with
      | none =>
        rw [hcat] at hpayload
        exact Option.noConfusion hpayload
      | some c0 =>
        rw [hcat] at hpayload
        simp only [Option.map_some'] at hpayload
        have hr : r = entityRecord t e cd dsc 0 :=
          (congrArg Prod.snd (Option.some.inj hpayload)).symm
        rw [hr]
        exact entityRecord_lookup_confidence ..
  · intro t e d s hacc hd hv hpf
    obtain ⟨cm, hcm, hlk⟩ := Option.bind_eq_some'.mp hd
    have himo : extractImoData e = .error () := by
      unfold extractImoData
      simp only [hcm, hlk, hv, Option.getD_some, pyFloat, hpf]
    rw [stepEntity_eq, if_pos hacc, himo]

/-- C2 witness: the amended theorem applied to the concrete entities
`w1Entity` (absent confidence, defaults) and `badConfEntity`
(unparseable confidence, raises). -/
theorem C2_witness :
    (stepEntity "" w1Entity ≠ .error () ∧
      ∀ c r, stepEntity "" w1Entity = .ok (some (c, r)) →
        r.lookup "confidence" = some (.q 0)) ∧
    stepEntity "" badConfEntity = .error () :=
  ⟨C2_confidence_handling.1 "" w1Entity rfl rfl,
   C2_confidence_handling.2 "" badConfEntity
     ⟨some "ICD", some "Hypertension", some (.str "high")⟩ "high"
     rfl rfl rfl rfl⟩

/-- 300-character text: 220 copies of 'a' then 80 copies of 'b'. -/
def ctxText : String := String.mk (List.replicate 220 'a' ++ List.replicate 80 'b')

/-- An accepted problem span with `end < begin` (length −30). -/
def negSpanEntity : Entity :=
  ⟨some "x", some 50, some 20, some "problem", some "present", some "e1", none⟩

/-- The same span with zero length at the same offset. -/
def zeroSpanEntity : Entity :=
  ⟨some "x", some 50, some 50, some "problem", some "present", some "e1", none⟩

set_option maxRecDepth 20000 in
/-- C3 counterexample: on `ctxText`, the record context for the
negative-length span (begin 50, end 20) differs from the context of the
zero-length span at the same offset — the classifier does NOT treat a
negative length as zero for windowing. -/
theorem C3_counterexample :
    ((stepEntity ctxText negSpanEntity).toOption.bind fun o =>
      o.bind fun p => p.2.lookup "context") ≠
    ((stepEntity ctxText zeroSpanEntity).toOption.bind fun o =>
      o.bind fun p => p.2.lookup "context") := by
  decide

/-- C3 amended: the classifier passes `length = endOffset − beginOffset`
to the windower unchanged; a negative length shifts the window end
(`offset + length + 200`, clamped) instead of being treated as zero. -/
theorem C3_raw_length_window (t : String) (e : Entity) (c : Cat) (r : Record)
    (hstep : stepEntity t e = .ok (some (c, r))) :
    r.lookup "context" = some (.s (extract_context t (e.beginVal.getD 0)
      (e.endVal.getD 0 - e.beginVal.getD 0) 200)) := by
  rw [stepEntity_eq] at hstep
  by_cases hacc : acceptedEntity e = true
  case neg =>
    rw [if_neg hacc] at hstep
    exact Option.noConfusion (Except.ok.inj hstep)
  rw [if_pos hacc] at hstep
  cases himo : extractImoData e with
  | error u =>
    rw [himo] at hstep
    exact Except.noConfusion hstep
  | ok trip =>
    obtain ⟨cd, dsc, q⟩ := trip
    rw [himo] at hstep
    have hpayload := Except.ok.inj hstep
    cases hcat : catOf (pyLower (e.semantic.getD "")) with
    | none =>
      rw [hcat] at hpayload
      exact Option.noConfusion hpayload
    | some c0 =>
      rw [hcat] at hpayload
      simp only [Option.map_some'] at hpayload
      have hr : r = entityRecord t e cd dsc q :=
        (congrArg Prod.snd (Option.some.inj hpayload)).symm
      rw [hr]
      exact entityRecord_lookup_context ..

/-- C3 witness: the amended theorem applied to the concrete
negative-length span on `ctxText`. -/
theorem C3_witness :
    (entityRecord ctxText negSpanEntity "" "" 0).lookup "context" =
      some (.s (extract_context ctxText 50 (20 - 50) 200)) :=
  C3_raw_length_window ctxText negSpanEntity .problems
    (entityRecord ctxText negSpanEntity "" "" 0) rfl

/-- C4 counterexample: the fallback path's problems record for the
example text carries none of the keys offset, length, entity_id,
semantic, assertion, codemaps — so the two paths do not share the full
twelve-field shape. -/
theorem C4_counterexample :
    (demo_extract_entities
      "Patient has hypertension and takes aspirin daily.").problems ≠ [] ∧
    ∀ r ∈ (demo_extract_entities
        "Patient has hypertension and takes aspirin daily.").problems,
      r.lookup "offset" = none ∧ r.lookup "length" = none ∧
      r.lookup "entity_id" = none ∧ r.lookup "semantic" = none ∧
      r.lookup "assertion" = none ∧ r.lookup "codemaps" = none := by
  decide

/-- C4 amended: the two paths agree on the six fields text, code,
code_system, description, confidence, context; classifier records
additionally carry offset, length, entity_id, semantic, assertion and
codemaps, which fallback records omit. -/
theorem C4_record_fields :
    (∀ (resp : ExtractionResponse) (t : String) (E : Entities),
      parse_extraction_response resp t = .ok E →
      ∀ r ∈ allRecords E, r.map Prod.fst =
        ["text", "code", "code_system", "description", "offset", "length",
         "confidence", "context", "entity_id", "semantic", "assertion",
         "codemaps"])
    ∧ (∀ t : String, ∀ r ∈ allRecords (demo_extract_entities t),
      r.map Prod.fst =
        ["text", "code", "code_system", "description", "confidence",
         "context"]) := by
  constructor
  · intro resp t E hok r hr
    rw [parse_eq] at hok
    rw [mem_allRecords] at hr
    obtain ⟨c, hc⟩ := hr
    rw [processEntities_ok_get t _ E hok c] at hc
    obtain ⟨e, -, -, cd, dsc, q, -, -, rfl⟩ := mem_collectCat _ _ _ _ hc
    exact entityRecord_keys ..
  · intro t r hr
    rw [mem_allRecords] at hr
    obtain ⟨c, hc⟩ := hr
    have hscan : ∀ (kws : List String) (cs : String) (q : ℚ),
        ∀ r ∈ demoScan t kws cs q, r.map Prod.fst =
          ["text", "code", "code_system", "description", "confidence",
           "context"] := by
      intro kws cs q r hr
      obtain ⟨kw, -, -, rfl⟩ := mem_demoScan t kws cs q r hr
      exact demoRecord_keys ..
    cases c with
    | problems =>
      exact hscan problem_keywords "ICD-10-CM" 0.85 r
        (by simpa [demo_extract_entities, Entities.get] using hc)
    | procedures =>
      exact hscan procedure_keywords "CPT" 0.80 r
        (by simpa [demo_extract_entities, Entities.get] using hc)
    | medications =>
      exact hscan medication_keywords "RxNorm" 0.90 r
        (by simpa [demo_extract_entities, Entities.get] using hc)
    | labs =>
      exact hscan lab_keywords "LOINC" 0.75 r
        (by simpa [demo_extract_entities, Entities.get] using hc)

set_option maxRecDepth 8000 in
/-- C4 witness: the amended theorem applied to the concrete classifier
record `w1Record` and to the fallback record for "hypertension". -/
theorem C4_witness :
    w1Record.map Prod.fst =
      ["text", "code", "code_system", "description", "offset", "length",
       "confidence", "context", "entity_id", "semantic", "assertion",
       "codemaps"] ∧
    (demoRecord "hypertension" "ICD-10-CM" 0.85
      (extract_context "Patient has hypertension and takes aspirin daily."
        12 12 50)).map Prod.fst =
      ["text", "code", "code_system", "description", "confidence",
       "context"] :=
  ⟨C4_record_fields.1 w1Resp "" w1E parse_w1 w1Record
      (by simp [allRecords, w1E]),
   C4_record_fields.2 "Patient has hypertension and takes aspirin daily."
     (demoRecord "hypertension" "ICD-10-CM" 0.85
       (extract_context "Patient has hypertension and takes aspirin daily."
         12 12 50))
     (by
       have hp : (demo_extract_entities
           "Patient has hypertension and takes aspirin daily.").problems =
           [demoRecord "hypertension" "ICD-10-CM" 0.85
             (extract_context
               "Patient has hypertension and takes aspirin daily."
               12 12 50)] := rfl
       simp [allRecords, hp])⟩

/-- One unfolding step of the entity loop. -/
theorem processEntities_cons (t : String) (e : Entity) (es : List Entity) :
    processEntities t (e :: es) =
      (do
        let h ← stepEntity t e
        let rest ← processEntities t es
        match h with
        | none => pure rest
        | some (c, r) => pure (consCat c r rest)) := rfl

/-- A span failing the assertion filter is skipped outright. -/
theorem stepEntity_skip (t : String) (e : Entity)
    (h : pyLower (e.assertion.getD "") ≠ "present") :
    stepEntity t e = .ok none := by
  unfold stepEntity
  rw [if_pos (by simpa [bne_iff_ne] using h)]

/-- C8: a span whose lower-cased assertion is not exactly "present" is
dropped: deleting it from the entity list leaves the classifier output
unchanged, so it appears in none of the four category sequences. -/
theorem C8_assertion_filter (t : String) (pre post : List Entity) (e : Entity)
    (h : pyLower (e.assertion.getD "") ≠ "present") :
    parse_extraction_response ⟨some (pre ++ e :: post)⟩ t =
      parse_extraction_response ⟨some (pre ++ post)⟩ t := by
  show processEntities t (pre ++ e :: post) = processEntities t (pre ++ post)
  induction pre with
  | nil =>
    show processEntities t (e :: post) = processEntities t post
    rw [processEntities_cons, stepEntity_skip t e h, exceptBind_ok]
    show processEntities t post >>= pure = processEntities t post
    exact bind_pure _
  | cons p ps ih =>
    rw [List.cons_append, List.cons_append, processEntities_cons,
      processEntities_cons, ih]

/-- A span with assertion "absent": the assertion filter must drop it. -/
def absentEntity : Entity :=
  ⟨some "fever", some 0, some 5, some "problem", some "absent", some "id3", none⟩

/-- C8 witness: the filter theorem applied to the concrete span with
assertion "absent". -/
theorem C8_witness :
    parse_extraction_response ⟨some [absentEntity]⟩ "fever noted" =
      parse_extraction_response ⟨some []⟩ "fever noted" :=
  C8_assertion_filter "fever noted" [] [] absentEntity (by decide)

/-- C9: category assignment is first-match priority over the four
keyword groups (`catOf` agrees with the spec-side `specPriorityCat`
everywhere), and a successful parse puts each accepted span's record in
exactly the list selected by that rule — `collectCat` filters on
`catOf = some c`, so a label matching no group contributes to no
category at all. -/
theorem C9_category_assignment :
    (∀ label, catOf label = specPriorityCat label)
    ∧ (∀ (resp : ExtractionResponse) (t : String) (E : Entities),
      parse_extraction_response resp t = .ok E →
      ∀ c, E.get c = collectCat t c (resp.entities.getD [])) := by
  refine ⟨catOf_eq_specPriorityCat, ?_⟩
  intro resp t E hok c
  rw [parse_eq] at hok
  exact processEntities_ok_get t _ E hok c

/-- C9 witness: the characterization applied to the concrete response
`w1Resp` at the problems category. -/
theorem C9_witness :
    Entities.get w1E Cat.problems = collectCat "" Cat.problems [w1Entity] :=
  C9_category_assignment.2 w1Resp "" w1E parse_w1 Cat.problems

end NLPProc
